import Mathlib

/-!
Verification of the L28-Coin core against its natural-language specification.

The development shallowly embeds the parts of the code base that the checked
claims are about:

* `src/coin/tx_validation.py` — transaction validator, reward schedule, tx ids;
* `src/leap28/ledger/blockless.py` — canonical JSON codec and append path;
* `src/leap28/consensus/pow/l28_pow_upgrade.py` — difficulty controller,
  entry hashing and proof-of-work validation;
* `src/leap28/ledger/l28_safe_ledger.py` — atomic append, integrity scan and
  rollback.

Machine-word arithmetic is modelled on `Nat` with explicit reduction modulo
`2 ^ 32`; Python's unbounded integers are `Int`; fallible Python calls are
`Except` values; JSON-able Python values are the inductive `J` below, with
floating-point numbers carried as their already-rendered decimal literals
(the claims under study never compute with them).
-/

set_option maxRecDepth 16384

namespace L28

/-! ### SHA-256 (FIPS 180-4), executable over `Nat`

`hashlib.sha256(...).hexdigest()` is used by every identity computation in the
repository.  The implementation below works on byte lists, with 32-bit words
represented as naturals kept below `2 ^ 32` by explicit `% w32` reductions. -/

/-- `2 ^ 32`: the modulus of 32-bit word arithmetic. -/
def w32 : Nat := 4294967296

/-- Right-rotation of a 32-bit word by `n` bits. -/
def rotr32 (n x : Nat) : Nat := ((x >>> n) ||| (x <<< (32 - n))) % w32

/-- `Ch(x,y,z)` of FIPS 180-4; `~x` is `x XOR 0xffffffff` on 32-bit words. -/
def shaCh (x y z : Nat) : Nat := (x &&& y) ^^^ ((x ^^^ 4294967295) &&& z)

/-- `Maj(x,y,z)` of FIPS 180-4. -/
def shaMaj (x y z : Nat) : Nat := (x &&& y) ^^^ (x &&& z) ^^^ (y &&& z)

/-- Big sigma-0. -/
def bsig0 (x : Nat) : Nat := rotr32 2 x ^^^ rotr32 13 x ^^^ rotr32 22 x

/-- Big sigma-1. -/
def bsig1 (x : Nat) : Nat := rotr32 6 x ^^^ rotr32 11 x ^^^ rotr32 25 x

/-- Small sigma-0. -/
def ssig0 (x : Nat) : Nat := rotr32 7 x ^^^ rotr32 18 x ^^^ (x >>> 3)

/-- Small sigma-1. -/
def ssig1 (x : Nat) : Nat := rotr32 17 x ^^^ rotr32 19 x ^^^ (x >>> 10)

/-- The 64 SHA-256 round constants (FIPS 180-4 §4.2.2, written in decimal). -/
def shaK : List Nat :=
  [1116352408, 1899447441, 3049323471, 3921009573, 961987163, 1508970993,
   2453635748, 2870763221, 3624381080, 310598401, 607225278, 1426881987,
   1925078388, 2162078206, 2614888103, 3248222580, 3835390401, 4022224774,
   264347078, 604807628, 770255983, 1249150122, 1555081692, 1996064986,
   2554220882, 2821834349, 2952996808, 3210313671, 3336571891, 3584528711,
   113926993, 338241895, 666307205, 773529912, 1294757372, 1396182291,
   1695183700, 1986661051, 2177026350, 2456956037, 2730485921, 2820302411,
   3259730800, 3345764771, 3516065817, 3600352804, 4094571909, 275423344,
   430227734, 506948616, 659060556, 883997877, 958139571, 1322822218,
   1537002063, 1747873779, 1955562222, 2024104815, 2227730452, 2361852424,
   2428436474, 2756734187, 3204031479, 3329325298]

/-- The eight SHA-256 initial hash words (FIPS 180-4 §5.3.3, in decimal). -/
def shaH0 : List Nat :=
  [1779033703, 3144134277, 1013904242, 2773480762,
   1359893119, 2600822924, 528734635, 1541459225]

/-- FIPS 180-4 §5.1.1 padding: `0x80`, zeros to 56 mod 64, then the 64-bit
big-endian bit length. -/
def padBytes (msg : List Nat) : List Nat :=
  let len := msg.length
  let zeros := (56 + 64 - (len + 1) % 64) % 64
  let bitLen := len * 8
  msg ++ 128 :: List.replicate zeros 0 ++
    (List.range 8).map (fun i => (bitLen >>> ((7 - i) * 8)) % 256)

/-- Big-endian 4-byte groups to 32-bit words. -/
def bytesToWords : List Nat → List Nat
  | b0 :: b1 :: b2 :: b3 :: rest =>
      (((b0 * 256 + b1) * 256 + b2) * 256 + b3) :: bytesToWords rest
  | _ => []

/-- Next message-schedule word, reading a reversed (most recent first) list of
the words produced so far, so `w[t-2]`, `w[t-7]`, `w[t-15]`, `w[t-16]` sit at
positions 1, 6, 14 and 15. -/
def schedNext (ws : List Nat) : Nat :=
  (ssig1 (ws.getD 1 0) + ws.getD 6 0 + ssig0 (ws.getD 14 0) + ws.getD 15 0) % w32

/-- Prepend `n` further schedule words to the reversed word list. -/
def schedExtend : Nat → List Nat → List Nat
  | 0, ws => ws
  | n + 1, ws => schedExtend n (schedNext ws :: ws)

/-- The 64-word message schedule of one 16-word block. -/
def schedule (block : List Nat) : List Nat := (schedExtend 48 block.reverse).reverse

/-- The eight working variables of the compression function. -/
structure ShaState where
  a : Nat
  b : Nat
  c : Nat
  d : Nat
  e : Nat
  f : Nat
  g : Nat
  hv : Nat

/-- One round of the compression function on round constant and schedule word. -/
def shaRound (s : ShaState) (kw : Nat × Nat) : ShaState :=
  let t1 := (s.hv + bsig1 s.e + shaCh s.e s.f s.g + kw.1 + kw.2) % w32
  let t2 := (bsig0 s.a + shaMaj s.a s.b s.c) % w32
  ⟨(t1 + t2) % w32, s.a, s.b, s.c, (s.d + t1) % w32, s.e, s.f, s.g⟩

/-- Compress one 16-word block into the running 8-word state. -/
def shaCompress (st : List Nat) (block : List Nat) : List Nat :=
  let w := schedule block
  let s0 : ShaState :=
    ⟨st.getD 0 0, st.getD 1 0, st.getD 2 0, st.getD 3 0,
     st.getD 4 0, st.getD 5 0, st.getD 6 0, st.getD 7 0⟩
  let s1 := (shaK.zip w).foldl shaRound s0
  List.zipWith (fun x y => (x + y) % w32) st
    [s1.a, s1.b, s1.c, s1.d, s1.e, s1.f, s1.g, s1.hv]

/-- Split a word list into 16-word blocks (the padded message is a multiple). -/
def blocks16 : List Nat → List (List Nat)
  | w0 :: w1 :: w2 :: w3 :: w4 :: w5 :: w6 :: w7 ::
    w8 :: w9 :: w10 :: w11 :: w12 :: w13 :: w14 :: w15 :: rest =>
      [w0, w1, w2, w3, w4, w5, w6, w7, w8, w9, w10, w11, w12, w13, w14, w15] ::
        blocks16 rest
  | _ => []

/-- The eight digest words of a byte message. -/
def sha256Words (msg : List Nat) : List Nat :=
  (blocks16 (bytesToWords (padBytes msg))).foldl shaCompress shaH0

/-- The sixteen lowercase hex digits. -/
def hexChars : List Char := "0123456789abcdef".data

/-- One hex digit. -/
def hexDigit (n : Nat) : Char := hexChars.getD n '0'

/-- The eight hex characters of a 32-bit word, most significant nibble first. -/
def wordHex (x : Nat) : List Char :=
  [28, 24, 20, 16, 12, 8, 4, 0].map (fun s => hexDigit ((x >>> s) % 16))

/-- Render digest words as the usual lowercase hex string. -/
def hexOfWords (ws : List Nat) : String := String.mk ((ws.map wordHex).flatten)

/-- UTF-8 encoding of one character, as byte values. -/
def utf8Char (c : Char) : List Nat :=
  let n := c.toNat
  if n < 128 then [n]
  else if n < 2048 then [192 + n / 64, 128 + n % 64]
  else if n < 65536 then [224 + n / 4096, 128 + (n / 64) % 64, 128 + n % 64]
  else [240 + n / 262144, 128 + (n / 4096) % 64, 128 + (n / 64) % 64, 128 + n % 64]

/-- UTF-8 encoding of a string, as byte values (`.encode("utf-8")`). -/
def utf8Bytes (s : String) : List Nat := (s.toList.map utf8Char).flatten

/-- `hashlib.sha256(s.encode("utf-8")).hexdigest()`. -/
def sha256Hex (s : String) : String := hexOfWords (sha256Words (utf8Bytes s))

/-! ### JSON-able Python values and `json.dumps`

The repository serializes dicts with `json.dumps` under three configurations:
sorted-key compact with `ensure_ascii=False` (canonical ids and entry hashes in
`tx_validation.compute_tx_id` and `blockless._json_dumps_sorted`), sorted-key
compact with default `ensure_ascii=True` (`l28_pow_upgrade.compute_entry_hash`),
and the all-default form (`l28_safe_ledger.append_entry_safe`).  Floats are
carried as their already-rendered `repr` literals. -/

/-- A JSON-able Python value.  `num` is a float carried as its rendered decimal
literal (the checked claims never do float arithmetic); `int` is a true Python
integer. -/
inductive J where
  | str (s : String)
  | int (n : Int)
  | num (lit : String)
  | bool (b : Bool)
  | null
  | obj (kvs : List (String × J))
  | arr (vs : List J)

/-- Python `repr` of an integer. -/
def intRepr (n : Int) : String := n.repr

/-- Four fixed-width hex digits (for `\uXXXX` escapes). -/
def hex4 (n : Nat) : String :=
  String.mk [hexDigit ((n >>> 12) % 16), hexDigit ((n >>> 8) % 16),
             hexDigit ((n >>> 4) % 16), hexDigit (n % 16)]

/-- `json.dumps` escaping of one character; `ascii` is `ensure_ascii`. -/
def jsonEscapeChar (ascii : Bool) (c : Char) : String :=
  if c = '"' then "\\\""
  else if c = '\\' then "\\\\"
  else if c = '\n' then "\\n"
  else if c = '\r' then "\\r"
  else if c = '\t' then "\\t"
  else if c = '\x08' then "\\b"
  else if c = '\x0c' then "\\f"
  else if c.toNat < 32 then "\\u" ++ hex4 c.toNat
  else if ascii && c.toNat > 127 then
    if c.toNat < 65536 then "\\u" ++ hex4 c.toNat
    else
      let n := c.toNat - 65536
      "\\u" ++ hex4 (55296 + n / 1024) ++ "\\u" ++ hex4 (56320 + n % 1024)
  else String.singleton c

/-- A JSON string literal. -/
def jsonStr (ascii : Bool) (s : String) : String :=
  "\"" ++ String.join (s.toList.map (jsonEscapeChar ascii)) ++ "\""

/-- Lexicographic comparison of code-point lists (Python string `<`). -/
def strLt : List Char → List Char → Bool
  | [], [] => false
  | [], _ :: _ => true
  | _ :: _, [] => false
  | c1 :: r1, c2 :: r2 =>
    if c1.toNat < c2.toNat then true
    else if c2.toNat < c1.toNat then false
    else strLt r1 r2

/-- Python `a < b` on strings. -/
def pyStrLt (a b : String) : Bool := strLt a.data b.data

/-- Insert a rendered key/value pair into a key-sorted list. -/
def insertKv (p : String × String) : List (String × String) → List (String × String)
  | [] => [p]
  | q :: rest => if pyStrLt q.1 p.1 then q :: insertKv p rest else p :: q :: rest

/-- Sort rendered key/value pairs by key (Python `sort_keys=True`). -/
def sortKvs : List (String × String) → List (String × String)
  | [] => []
  | p :: rest => insertKv p (sortKvs rest)

/-- Join rendered items with a separator. -/
def joinSep (sep : String) : List String → String
  | [] => ""
  | [x] => x
  | x :: rest => x ++ sep ++ joinSep sep rest

/-- A `json.dumps` configuration: `sort_keys`, the two `separators`, and
`ensure_ascii`. -/
structure DumpCfg where
  sortKeys : Bool
  itemSep : String
  kvSep : String
  ensureAscii : Bool

mutual

/-- `json.dumps(v, **cfg)`. -/
def dumps (cfg : DumpCfg) : J → String
  | .str s => jsonStr cfg.ensureAscii s
  | .int n => intRepr n
  | .num lit => lit
  | .bool true => "true"
  | .bool false => "false"
  | .null => "null"
  | .obj kvs =>
      "\x7b" ++
        joinSep cfg.itemSep
          ((if cfg.sortKeys then sortKvs (dumpsKvs cfg kvs) else dumpsKvs cfg kvs).map
            (fun p => jsonStr cfg.ensureAscii p.1 ++ cfg.kvSep ++ p.2)) ++
        "\x7d"
  | .arr vs => "[" ++ joinSep cfg.itemSep (dumpsList cfg vs) ++ "]"

/-- Render each value of an object, keeping insertion order and raw keys. -/
def dumpsKvs (cfg : DumpCfg) : List (String × J) → List (String × String)
  | [] => []
  | (k, v) :: rest => (k, dumps cfg v) :: dumpsKvs cfg rest

/-- Render the elements of an array. -/
def dumpsList (cfg : DumpCfg) : List J → List String
  | [] => []
  | v :: rest => dumps cfg v :: dumpsList cfg rest

end

/-- `json.dumps(v, sort_keys=True, separators=(",", ":"), ensure_ascii=False)` —
the canonical codec of `compute_tx_id` and `blockless._json_dumps_sorted`. -/
def dumpsCanon : J → String := dumps ⟨true, ",", ":", false⟩

/-- `json.dumps(v, sort_keys=True, separators=(",", ":"))` with the default
`ensure_ascii=True`, as in `compute_entry_hash`. -/
def dumpsCanonAscii : J → String := dumps ⟨true, ",", ":", true⟩

/-- Plain `json.dumps(v)`: insertion order, `", "`/`": "` separators, ASCII. -/
def dumpsDefault : J → String := dumps ⟨false, ", ", ": ", true⟩

/-! ### Python value semantics used by `tx_validation.py` -/

/-- A transaction dict: keys to JSON-able values (keys unique, as in Python). -/
abbrev Tx := List (String × J)

/-- `tx.get(k)`. -/
def txGet : Tx → String → Option J
  | [], _ => none
  | (q, v) :: rest, k => if q = k then some v else txGet rest k

/-- Python `str(v)`.  Dict and list values are rendered via the JSON codec as a
stand-in for Python `repr`; in the validator such a rendering is only ever
compared against brace-free protocol constants, so the two agree on every
comparison the code makes. -/
def pyStr : J → String
  | .str s => s
  | .int n => intRepr n
  | .num lit => lit
  | .bool true => "True"
  | .bool false => "False"
  | .null => "None"
  | .obj kvs => dumpsDefault (.obj kvs)
  | .arr vs => dumpsDefault (.arr vs)

/-- `str(tx.get(k))`: a missing key reads as Python `None`. -/
def pyStrOpt : Option J → String
  | some v => pyStr v
  | none => "None"

/-- Python truthiness of a JSON-able value.  A float literal is falsy exactly
when it is a rendered zero (`repr` of a zero float). -/
def pyTruthy : J → Bool
  | .str s => s != ""
  | .int n => n != 0
  | .num lit => !(lit == "0.0" || lit == "-0.0" || lit == "0")
  | .bool b => b
  | .null => false
  | .obj kvs => !kvs.isEmpty
  | .arr vs => !vs.isEmpty

/-- Truthiness of `tx.get(k)` (missing keys are falsy `None`). -/
def pyTruthyOpt : Option J → Bool
  | some v => pyTruthy v
  | none => false

/-- Python `a or b` over dict lookups: the first operand if truthy, else `b`. -/
def pyOr (a b : Option J) : Option J := if pyTruthyOpt a then a else b

/-- Digits of a decimal literal, `none` on empty or non-digit input. -/
def parseDigits : List Char → Option Nat
  | [] => none
  | l => l.foldl (fun acc c => match acc with
      | none => none
      | some n => if c.isDigit then some (n * 10 + (c.toNat - 48)) else none)
      (some 0)

/-- Python `int(s)` on a string: optional sign and decimal digits, surrounding
whitespace stripped; anything else raises (modelled as `none`). -/
def pyParseInt (s : String) : Option Int :=
  match s.trim.toList with
  | '-' :: rest => (parseDigits rest).map (fun n => -(n : Int))
  | '+' :: rest => (parseDigits rest).map (fun n => (n : Int))
  | l => (parseDigits l).map (fun n => (n : Int))

/-- Python `int(f)` on a float rendered as `lit`: truncation toward zero of a
plain decimal literal. -/
def truncFloatLit (s : String) : Option Int :=
  let core (l : List Char) : Option Nat :=
    match l.span (fun c => c != '.') with
    | (intPart, []) => parseDigits intPart
    | (intPart, _ :: frac) =>
        if frac.all Char.isDigit then parseDigits intPart else none
  match s.toList with
  | '-' :: rest => (core rest).map (fun n => -(n : Int))
  | l => (core l).map (fun n => (n : Int))

/-- Python `int(v)` on a JSON-able value: ints unchanged, bools to 0/1, strings
parsed, floats truncated; `None`, dicts and lists raise (`none`). -/
def asIntCore : J → Option Int
  | .int n => some n
  | .bool b => some (if b then 1 else 0)
  | .str s => pyParseInt s
  | .num lit => truncFloatLit lit
  | .null => none
  | .obj _ => none
  | .arr _ => none

/-- `_as_int(v)`: `None` maps to `None`, otherwise `int(v)` with any exception
swallowed to `None`. -/
def asInt : Option J → Option Int
  | none => none
  | some v => asIntCore v

/-! ### `tx_validation.py` — constants, reward schedule, tx ids, validator -/

/-- `L28_MAX_SUPPLY`. -/
def L28_MAX_SUPPLY : Int := 28000000

/-- `L28_HALVING_INTERVAL`. -/
def L28_HALVING_INTERVAL : Nat := 100000

/-- `L28_MAX_COINBASE_REWARD`. -/
def L28_MAX_COINBASE_REWARD : Nat := 50

/-- `RESERVED_SENDERS`. -/
def RESERVED_SENDERS : List String := ["COINBASE", "__MINT__"]

/-- `compute_tx_id`: SHA-256 hex digest of the canonical encoding of the whole
dict. -/
def computeTxId (tx : Tx) : String := sha256Hex (dumpsCanon (.obj tx))

/-- `is_coinbase_tx`: strict coinbase identity. -/
def isCoinbaseTx (tx : Tx) : Bool :=
  pyStrOpt (txGet tx "sender") == "COINBASE" &&
  pyStrOpt (txGet tx "type") == "coinbase" &&
  pyTruthyOpt (txGet tx "coinbase")

/-- `l28_coinbase_reward`: halve 50 every 100000 heights, floored at 1;
negative heights give 0. -/
def l28CoinbaseReward (height : Int) : Int :=
  if height < 0 then 0
  else max 1 ((L28_MAX_COINBASE_REWARD >>> (height.toNat / L28_HALVING_INTERVAL) : Nat) : Int)

/-- Modelled Python exceptions (the payload carries no meaning). -/
abbrev PyErr := String

/-- `TxPolicy` with its dataclass defaults. -/
structure TxPolicy where
  requireSignatures : Bool := false
  maxTxAmount : Int := 10000000000
  minTxAmount : Int := 1

/-- The keyword arguments of `validate_transaction`: policy, oracles (each of
which may raise — `Except`), clock and network.  A `none` oracle is an absent
(or non-callable) argument. -/
structure TxOracles where
  policy : Option TxPolicy := none
  balanceLookup : String → String → Except PyErr J
  seenLookup : Option (String → Except PyErr J) := none
  verifySignature : Option (Tx → Except PyErr J) := none
  nowTs : Option Int := none
  issuedLookup : Option (Unit → Except PyErr J) := none
  heightLookup : Option (Unit → Except PyErr J) := none
  network : String := "MAIN"

/-- The replay guard at the top of `validate_transaction`: the whole lookup is
inside `try/except`, so an oracle exception becomes `replay_lookup_error`. -/
def replayGuard (o : TxOracles) (txId : String) : Option (Bool × String × String) :=
  match o.seenLookup with
  | none => none
  | some f =>
    match f txId with
    | .ok v => if pyTruthy v then some (false, txId, "replay") else none
    | .error _ => some (false, txId, "replay_lookup_error")

/-- `ts > int(now_ts) + 60` when `now_ts` is given. -/
def futureSkew (now : Option Int) (ts : Int) : Bool :=
  match now with
  | some n => ts > n + 60
  | none => false

/-- The optional-signature block of the transfer path. -/
def signatureGuard (o : TxOracles) (pol : TxPolicy) (tx : Tx) (txId : String) :
    Option (Bool × String × String) :=
  if pol.requireSignatures then
    match o.verifySignature with
    | none => some (false, txId, "signature_required_missing_verifier")
    | some f =>
      match f tx with
      | .error _ => some (false, txId, "signature_verify_error")
      | .ok v => if pyTruthy v then none else some (false, txId, "bad_signature")
  else none

/-- The coinbase branch of `validate_transaction`.  Note the asymmetry taken
verbatim from the source: the height oracle call sits inside `try/except`,
while `current_issued_lookup()` is called *outside* `_as_int`'s protection, so
its exception propagates (`Except.error`). -/
def validateCoinbase (o : TxOracles) (tx : Tx) (txId : String) :
    Except PyErr (Bool × String × String) :=
  match o.heightLookup, o.issuedLookup with
  | none, _ => .ok (false, txId, "missing_consensus_lookups")
  | some _, none => .ok (false, txId, "missing_consensus_lookups")
  | some hl, some il =>
    let canonicalRes : Option Int :=
      match hl () with
      | .ok v => asIntCore v
      | .error _ => none
    match canonicalRes with
    | none => .ok (false, txId, "canonical_height_unavailable")
    | some canonicalH =>
      match il () with
      | .error e => .error e
      | .ok issuedRaw =>
        match asIntCore issuedRaw with
        | none => .ok (false, txId, "issued_supply_unavailable")
        | some issued =>
          let receiver := txGet tx "receiver"
          let miner := pyOr (txGet tx "miner")
            (pyOr (txGet tx "miner_address") (pyOr (txGet tx "to") receiver))
          match receiver with
          | some (.str r) =>
            if r = "" then .ok (false, txId, "coinbase_missing_receiver")
            else
              match miner with
              | some (.str m) =>
                if m = "" then .ok (false, txId, "coinbase_missing_miner")
                else if r ≠ m then .ok (false, txId, "coinbase_receiver_mismatch")
                else
                  match asInt (txGet tx "nonce") with
                  | none => .ok (false, txId, "coinbase_missing_nonce")
                  | some _ =>
                    match asInt (txGet tx "timestamp") with
                    | none => .ok (false, txId, "coinbase_missing_timestamp")
                    | some tsv =>
                      if futureSkew o.nowTs tsv then
                        .ok (false, txId, "coinbase_timestamp_in_future")
                      else
                        match asInt (txGet tx "height") with
                        | none => .ok (false, txId, "coinbase_missing_height")
                        | some hf =>
                          if hf ≠ canonicalH then
                            .ok (false, txId, "coinbase_height_mismatch")
                          else
                            match asInt (txGet tx "amount") with
                            | none => .ok (false, txId, "coinbase_amount_not_int")
                            | some amount =>
                              let reward := l28CoinbaseReward canonicalH
                              if amount ≠ reward then
                                .ok (false, txId, "coinbase_bad_reward")
                              else if issued + reward > L28_MAX_SUPPLY then
                                .ok (false, txId, "coinbase_supply_cap")
                              else .ok (true, txId, "ok")
              | _ => .ok (false, txId, "coinbase_missing_miner")
          | _ => .ok (false, txId, "coinbase_missing_receiver")

/-- The transfer branch of `validate_transaction`. -/
def validateTransfer (o : TxOracles) (pol : TxPolicy) (tx : Tx) (txId : String) :
    Except PyErr (Bool × String × String) :=
  match txGet tx "sender" with
  | some (.str s) =>
    if s = "" then .ok (false, txId, "missing_sender")
    else
      match txGet tx "receiver" with
      | some (.str r) =>
        if r = "" then .ok (false, txId, "missing_receiver")
        else
          match asInt (txGet tx "amount") with
          | none => .ok (false, txId, "amount_not_int")
          | some amount =>
            if amount < pol.minTxAmount then .ok (false, txId, "amount_too_small")
            else if amount > pol.maxTxAmount then .ok (false, txId, "amount_too_large")
            else
              match asInt (txGet tx "timestamp") with
              | none => .ok (false, txId, "missing_timestamp")
              | some tsv =>
                if futureSkew o.nowTs tsv then .ok (false, txId, "timestamp_in_future")
                else
                  match signatureGuard o pol tx txId with
                  | some rej => .ok rej
                  | none =>
                    match o.balanceLookup s o.network with
                    | .error _ => .ok (false, txId, "balance_lookup_error")
                    | .ok bv =>
                      match asIntCore bv with
                      | none => .ok (false, txId, "balance_lookup_error")
                      | some bal =>
                        if bal < amount then .ok (false, txId, "insufficient_balance")
                        else .ok (true, txId, "ok")
      | _ => .ok (false, txId, "missing_receiver")
  | _ => .ok (false, txId, "missing_sender")

/-- `validate_transaction(tx, ...)`, embedded in an exception monad: `.ok` is a
structured `(ok, tx_id, reason)` return, `.error` a Python exception escaping
the function. -/
def validateTransaction (o : TxOracles) (txv : J) : Except PyErr (Bool × String × String) :=
  match txv with
  | .obj tx =>
    let txId := computeTxId tx
    match replayGuard o txId with
    | some rej => .ok rej
    | none =>
      let pol := o.policy.getD {}
      if RESERVED_SENDERS.contains (pyStrOpt (txGet tx "sender")) && !isCoinbaseTx tx then
        .ok (false, txId, "reserved_sender_misuse")
      else if isCoinbaseTx tx then
        validateCoinbase o tx txId
      else
        validateTransfer o pol tx txId
  | _ => .ok (false, "", "tx_not_dict")

/-! ### `ledger/blockless.py` — canonical entry hashing on the append path -/

/-- Remove every pair with the given key: "the entry with the `hash` field
excluded". -/
def eraseKey (k : String) : Tx → Tx
  | [] => []
  | (q, v) :: rest => if q = k then eraseKey k rest else (q, v) :: eraseKey k rest

/-- SHA-256 hex digest of the canonical encoding of a dict
(`_sha256_str(_json_dumps_sorted(d))`). -/
def entryHashOf (d : Tx) : String := sha256Hex (dumpsCanon (.obj d))

/-- The hash rule the spec states for every valid ledger entry (§6, §8):
SHA-256 of the canonical encoding of the entry with the `hash` field excluded.
This is the spec-side definition of the refinement claim C4, to be compared
with the hashes the two code paths actually store. -/
def specEntryHash (entry : Tx) : String := sha256Hex (dumpsCanon (.obj (eraseKey "hash" entry)))

/-- The `entry_data` dict `blockless.append_entry` builds before hashing, in
source order.  The float-valued fields (`ts`, `validator_s`, `poi_q`, `poi_v`,
`reward`, `current_supply`) are results of float arithmetic the claims never
inspect, so they are carried as their rendered literals. -/
def appendEntryData (tsLit : String) (payload : J) (qubits : Int)
    (validatorSLit poiQLit poiVLit rewardLit : String) (prev : String)
    (entryHeight : Int) (supplyLit : String) : Tx :=
  [("ts", .num tsLit), ("payload", payload), ("qubits", .int qubits),
   ("validator_s", .num validatorSLit), ("poi_q", .num poiQLit),
   ("poi_v", .num poiVLit), ("reward", .num rewardLit), ("prev", .str prev),
   ("entry_height", .int entryHeight), ("current_supply", .num supplyLit)]

/-- The complete entry `append_entry` writes: `entry_data` with
`entry_data["hash"] = _sha256_str(_json_dumps_sorted(entry_data))` appended. -/
def appendEntryFull (tsLit : String) (payload : J) (qubits : Int)
    (validatorSLit poiQLit poiVLit rewardLit : String) (prev : String)
    (entryHeight : Int) (supplyLit : String) : Tx :=
  let d := appendEntryData tsLit payload qubits validatorSLit poiQLit poiVLit
    rewardLit prev entryHeight supplyLit
  d ++ [("hash", .str (entryHashOf d))]

/-! ### `consensus/pow/l28_pow_upgrade.py` — difficulty, PoW hashing, mining -/

/-- `L28PoWConfig.GENESIS_LOCKED`. -/
def GENESIS_LOCKED : Int := 100060

/-- `L28PoWConfig.TARGET_ENTRY_TIME` (0.89 seconds), as an exact rational. -/
def TARGET_ENTRY_TIME : ℚ := 89 / 100

/-- `L28PoWConfig.DIFFICULTY_WINDOW`. -/
def DIFFICULTY_WINDOW : Int := 1440

/-- `L28PoWConfig.MIN_DIFFICULTY`. -/
def MIN_DIFFICULTY : Int := 12

/-- `L28PoWConfig.MAX_DIFFICULTY`. -/
def MAX_DIFFICULTY : Int := 16

/-- `is_genesis_locked`. -/
def isGenesisLocked (entryHeight : Int) : Bool := entryHeight ≤ GENESIS_LOCKED

/-- `calculate_difficulty`, as a pure function of the instance state it reads:
the memo cache `_difficulty_cache`, the running `current_difficulty`, and the
`ts` fields of the entries `_get_recent_entries` returned (timestamps modelled
as exact rationals standing in for Python floats, as are the 0.7 / 1.5
thresholds). -/
def calculateDifficulty (cache : Int → Option Int) (cur : Int)
    (recentTs : List ℚ) (entryHeight : Int) : Int :=
  match cache entryHeight with
  | some d => d
  | none =>
    if entryHeight < GENESIS_LOCKED + DIFFICULTY_WINDOW then MIN_DIFFICULTY
    else if recentTs.length < 100 then cur
    else
      let timeSpan := recentTs.getLast?.getD 0 - recentTs.head?.getD 0
      let expected := TARGET_ENTRY_TIME * (recentTs.length : ℚ)
      let rr := timeSpan / expected
      if rr < 7 / 10 then min (cur + 1) MAX_DIFFICULTY
      else if rr > 3 / 2 then max (cur - 1) MIN_DIFFICULTY
      else cur

/-- `compute_entry_hash`: SHA-256 of the concatenation
`f"{entry_height}{prev_hash}{payload_str}{nonce}"`, where `payload_str` is the
sorted-key compact (default-ASCII) JSON of the payload. -/
def computeEntryHash (entryHeight : Int) (prevHash : String) (payload : J)
    (nonce : Int) : String :=
  sha256Hex (intRepr entryHeight ++ prevHash ++ dumpsCanonAscii payload ++ intRepr nonce)

/-- The fields of an entry that `validate_pow` reads: height, stored hash, and
the recorded difficulty when the `difficulty` key is present. -/
structure PowEntry where
  entryHeight : Int
  hash : String
  difficulty : Option Int

/-- Python `"0" * d` (empty for non-positive `d`). -/
def zeroTarget (d : Int) : String := String.mk (List.replicate d.toNat '0')

/-- Python `s.startswith(pre)`, character-wise. -/
def pyStartsWith (s pre : String) : Bool := pre.data.isPrefixOf s.data

/-- `validate_pow(entry)`.  `calcDiff` stands for `calculate_difficulty`
applied to the instance state; it is only consulted when the entry records no
difficulty and is not genesis-locked. -/
def validatePow (calcDiff : Int → Int) (e : PowEntry) : Bool :=
  match e.difficulty with
  | some d => pyStartsWith e.hash (zeroTarget d)
  | none =>
    if isGenesisLocked e.entryHeight then true
    else pyStartsWith e.hash (zeroTarget (calcDiff e.entryHeight))

/-- Python dict assignment `d[k] = v`: overwrite in place, else append. -/
def setKey : Tx → String → J → Tx
  | [], k, v => [(k, v)]
  | (q, w) :: rest, k, v =>
    if q = k then (q, v) :: rest else (q, w) :: setKey rest k v

/-- The dict `mine_entry_pow` returns when nonce `nonce` wins, in source field
order; `current_supply` (a float sum) and `ts` are rendered literals. -/
def mineEntryRecord (entryHeight : Int) (prevHash : String) (payload : J)
    (nonce : Int) (supplyLit : String) (difficulty : Int) (tsLit : String) : Tx :=
  [("entry_height", .int entryHeight),
   ("hash", .str (computeEntryHash entryHeight prevHash payload nonce)),
   ("prev", .str prevHash),
   ("current_supply", .num supplyLit),
   ("reward", .num "28.0"),
   ("difficulty", .int difficulty),
   ("qubits", .int 50),
   ("poi_q", .num "1.0"),
   ("poi_v", .num "100.0"),
   ("validator_s", .num "100.0"),
   ("ts", .num tsLit),
   ("payload", payload)]

/-- The nonce loop of `mine_entry_pow`: set `payload["nonce"]`, hash, return
the complete entry on the first hash meeting the target, `none` after
`maxAttempts` failures. -/
def mineLoop (entryHeight : Int) (prevHash : String) (payload0 : Tx)
    (supplyLit tsLit : String) (difficulty : Int) : Nat → Nat → Option Tx
  | _, 0 => none
  | nonce, fuel + 1 =>
    let payload := setKey payload0 "nonce" (.int nonce)
    let h := computeEntryHash entryHeight prevHash (.obj payload) nonce
    if pyStartsWith h (zeroTarget difficulty) then
      some (mineEntryRecord entryHeight prevHash (.obj payload) nonce supplyLit
        difficulty tsLit)
    else mineLoop entryHeight prevHash payload0 supplyLit tsLit difficulty (nonce + 1) fuel

/-- `mine_entry_pow`: genesis-locked heights raise `PermissionError`; otherwise
the nonce search runs at the difficulty `calculate_difficulty` returned
(abstracted as `calcDiff`), and exhaustion is a defined `none` outcome. -/
def mineEntryPow (calcDiff : Int → Int) (entryHeight : Int) (prevHash : String)
    (payload0 : Tx) (supplyLit tsLit : String) (maxAttempts : Nat) :
    Except PyErr (Option Tx) :=
  if isGenesisLocked entryHeight then .error "PermissionError"
  else
    let difficulty := calcDiff entryHeight
    .ok (mineLoop entryHeight prevHash payload0 supplyLit tsLit difficulty 0 maxAttempts)

/-! ### `ledger/l28_safe_ledger.py` — atomic append, integrity scan, rollback -/

/-- Failure injection for the fallible steps of `append_entry_safe`, in program
order: `tempfile.mkstemp`, `shutil.copy2`, the entry write, `os.replace`. -/
structure AppendFailures where
  mkstempFail : Bool := false
  copyFail : Bool := false
  writeFail : Bool := false
  replaceFail : Bool := false

/-- `append_entry_safe` over the ledger file contents (`none` = file absent),
under the write lock.  Each fallible step either succeeds or raises; a raise
inside the inner `try` removes the temp file and re-raises, and the outer
`except` turns any exception into a `False` return — the ledger itself is only
touched by the final atomic `os.replace`. -/
def appendEntrySafe (ledger : Option String) (entry : J) (f : AppendFailures) :
    Bool × Option String :=
  if f.mkstempFail then (false, ledger)
  else
    let temp0 : String := ""
    if f.copyFail then (false, ledger)
    else
      let temp1 := match ledger with
        | some c => c
        | none => temp0
      if f.writeFail then (false, ledger)
      else
        let temp2 := temp1 ++ dumpsDefault entry ++ "\n"
        if f.replaceFail then (false, ledger)
        else (true, some temp2)

/-- The fields of a parsed ledger line that `verify_integrity` and
`rollback_to_height` read. -/
structure LEntry where
  entryHeight : Int
  hash : String
  prev : String

/-- The report `verify_integrity` accumulates (`parse errors` only arise for
malformed lines, which a parsed-entry ledger does not contain). -/
structure IntegrityReport where
  valid : Bool
  totalEntries : Nat
  hashChainIntact : Bool
  duplicateHeights : List Int
  brokenLinks : List (Int × String × String)
  errors : List String

/-- The per-line loop of `verify_integrity`: count the entry, flag a reused
height, flag a `prev` that does not match the previous line's `hash`. -/
def scanLedger : List LEntry → Option String → List Int → IntegrityReport → IntegrityReport
  | [], _, _, acc => acc
  | e :: rest, prevHash, seen, acc =>
    let acc1 := { acc with totalEntries := acc.totalEntries + 1 }
    let acc2 :=
      if seen.contains e.entryHeight then
        { acc1 with duplicateHeights := acc1.duplicateHeights ++ [e.entryHeight],
                    valid := false }
      else acc1
    let acc3 :=
      match prevHash with
      | none => acc2
      | some ph =>
        if e.prev ≠ ph then
          { acc2 with brokenLinks := acc2.brokenLinks ++ [(e.entryHeight, ph, e.prev)],
                      hashChainIntact := false, valid := false }
        else acc2
    scanLedger rest (some e.hash) (e.entryHeight :: seen) acc3

/-- `verify_integrity()` on a ledger parsed into entries (`none` = file
missing). -/
def verifyIntegrity (ledger : Option (List LEntry)) : IntegrityReport :=
  match ledger with
  | none =>
    { valid := false, totalEntries := 0, hashChainIntact := true,
      duplicateHeights := [], brokenLinks := [], errors := ["Ledger file not found"] }
  | some es =>
    scanLedger es none []
      { valid := true, totalEntries := 0, hashChainIntact := true,
        duplicateHeights := [], brokenLinks := [], errors := [] }

/-- The keep-loop of `rollback_to_height`: copy lines while the height is at
most the target, `break` at the first higher entry. -/
def rollbackKeep (target : Int) : List LEntry → List LEntry
  | [] => []
  | e :: rest => if e.entryHeight ≤ target then e :: rollbackKeep target rest else []

/-! ### Shared fixtures for the validator claims -/

/-- A fully-populated strict coinbase transaction with the given field values
(receiver and miner coincide, as the validator requires). -/
def coinbaseTx (receiver : String) (nonce ts heightField : Int) (amount : J) : Tx :=
  [("sender", .str "COINBASE"), ("type", .str "coinbase"), ("coinbase", .bool true),
   ("receiver", .str receiver), ("miner", .str receiver), ("nonce", .int nonce),
   ("timestamp", .int ts), ("height", .int heightField), ("amount", amount)]

/-- Well-behaved consensus oracles reporting the given canonical height and
issued supply, with an empty replay set and no clock. -/
def consensusOracles (canonicalH issued : Int) : TxOracles :=
  { balanceLookup := fun _ _ => .ok (.int 0),
    seenLookup := some (fun _ => .ok (.bool false)),
    issuedLookup := some (fun _ => .ok (.int issued)),
    heightLookup := some (fun _ => .ok (.int canonicalH)) }

/-! ## The claims -/

/-- C3: the reward schedule `l28_coinbase_reward(h)` equals
`max(1, 50 >> (h // 100000))` at every height, hence is at least 1 and
non-increasing in the height, with reward 50 at heights 0 and 99999 and
reward 25 at height 100000. -/
theorem C3_reward_schedule :
    (∀ h : Nat, l28CoinbaseReward (h : Int) = ((max 1 (50 >>> (h / 100000)) : Nat) : Int)) ∧
    (∀ h : Nat, 1 ≤ l28CoinbaseReward (h : Int)) ∧
    (∀ h1 h2 : Nat, h1 ≤ h2 → l28CoinbaseReward (h2 : Int) ≤ l28CoinbaseReward (h1 : Int)) ∧
    l28CoinbaseReward 0 = 50 ∧ l28CoinbaseReward 99999 = 50 ∧
    l28CoinbaseReward 100000 = 25 := by
  have key : ∀ h : Nat,
      l28CoinbaseReward (h : Int) = ((max 1 (50 >>> (h / 100000)) : Nat) : Int) := by
    intro h
    unfold l28CoinbaseReward L28_MAX_COINBASE_REWARD L28_HALVING_INTERVAL
    rw [if_neg (not_lt.mpr (Int.natCast_nonneg h))]
    simp [Nat.cast_max]
  have mono : ∀ h1 h2 : Nat, h1 ≤ h2 →
      50 >>> (h2 / 100000) ≤ 50 >>> (h1 / 100000) := by
    intro h1 h2 hle
    simp only [Nat.shiftRight_eq_div_pow]
    exact Nat.div_le_div_left
      (Nat.pow_le_pow_right (by norm_num) (Nat.div_le_div_right hle))
      (Nat.pow_pos (by norm_num))
  refine ⟨key, ?_, ?_, by decide, by decide, by decide⟩
  · intro h
    rw [key h]
    exact_mod_cast Nat.le_max_left 1 _
  · intro h1 h2 hle
    rw [key h1, key h2]
    exact_mod_cast max_le_max (le_refl 1) (mono h1 h2 hle)

/-- Witness for C3 at concrete heights: monotonicity applied to 99999 ≤ 150000,
together with the concrete value at height 0. -/
theorem C3_reward_schedule_witness :
    l28CoinbaseReward ((150000 : Nat) : Int) ≤ l28CoinbaseReward ((99999 : Nat) : Int) ∧
    l28CoinbaseReward 0 = 50 :=
  ⟨C3_reward_schedule.2.2.1 99999 150000 (by norm_num), C3_reward_schedule.2.2.2.1⟩

/-- C4 (amended): entries built by the blockless append path store as `hash`
exactly the SHA-256 of the canonical encoding of the entry with the `hash`
field excluded; entries built by the PoW mining path instead store the SHA-256
of the `height‖prev‖payload‖nonce` concatenation computed by
`compute_entry_hash`. -/
theorem C4_entry_hash_rule :
    (∀ tsLit payload qubits vS pQ pV rwLit prev eh sup,
      txGet (appendEntryFull tsLit payload qubits vS pQ pV rwLit prev eh sup) "hash" =
        some (.str (specEntryHash
          (appendEntryFull tsLit payload qubits vS pQ pV rwLit prev eh sup)))) ∧
    (∀ eh prevHash payload nonce sup d tsL,
      txGet (mineEntryRecord eh prevHash payload nonce sup d tsL) "hash" =
        some (.str (computeEntryHash eh prevHash payload nonce))) := by
  constructor
  · intro tsLit payload qubits vS pQ pV rwLit prev eh sup
    simp [appendEntryFull, appendEntryData, specEntryHash, entryHashOf, eraseKey, txGet]
  · intro eh prevHash payload nonce sup d tsL
    rfl

/-- The payload of a concrete mining attempt (with the nonce already set, as
the mining loop does before hashing). -/
def cexPayload : Tx :=
  [("type", .str "mining"), ("miner", .str "M1"),
   ("timestamp", .str "2024-01-01T00:00:00"), ("nonce", .int 7)]

/-- The entry the mining path builds for that attempt. -/
def cexMined : Tx := mineEntryRecord 100061 "ab" (.obj cexPayload) 7 "28.0" 12 "1.5"

/-- C4 counterexample: a mining-path entry stores the `compute_entry_hash`
concatenation digest, and that digest differs from the SHA-256 of the
canonical encoding of the entry with the `hash` field excluded, so the claimed
hash rule fails on the mining path. -/
theorem C4_counterexample :
    txGet cexMined "hash" =
      some (.str (computeEntryHash 100061 "ab" (.obj cexPayload) 7)) ∧
    computeEntryHash 100061 "ab" (.obj cexPayload) 7 ≠ specEntryHash cexMined :=
  ⟨rfl, by decide⟩

/-- C5 (amended): when an entry records a difficulty, `validate_pow` checks the
stored hash against that difficulty's leading-zero target and the genesis lock
is not consulted; entries without a recorded difficulty pass automatically at
or below the genesis lock height and are otherwise checked against the
computed difficulty. -/
theorem C5_validate_pow_rule (calcDiff : Int → Int) :
    (∀ e : PowEntry, ∀ d : Int, e.difficulty = some d →
      (validatePow calcDiff e = true ↔ pyStartsWith e.hash (zeroTarget d) = true)) ∧
    (∀ e : PowEntry, e.difficulty = none → isGenesisLocked e.entryHeight = true →
      validatePow calcDiff e = true) ∧
    (∀ e : PowEntry, e.difficulty = none → isGenesisLocked e.entryHeight = false →
      (validatePow calcDiff e = true ↔
        pyStartsWith e.hash (zeroTarget (calcDiff e.entryHeight)) = true)) := by
  refine ⟨?_, ?_, ?_⟩ <;> intro e
  · intro d hd
    simp [validatePow, hd]
  · intro hd hg
    simp [validatePow, hd, hg]
  · intro hd hg
    simp [validatePow, hd, hg]

/-- Witness for C5 at a concrete entry recording difficulty 2 whose stored
hash has two leading zeros. -/
theorem C5_validate_pow_rule_witness :
    validatePow (fun _ => MIN_DIFFICULTY) ⟨101500, "00abc", some 2⟩ = true :=
  ((C5_validate_pow_rule (fun _ => MIN_DIFFICULTY)).1 ⟨101500, "00abc", some 2⟩ 2 rfl).mpr
    (by decide)

/-- C5 counterexample: an entry at height 5 — at or below the genesis lock
height — that records difficulty 12 with a hash lacking the leading zeros is
rejected by `validate_pow`, so such entries do not pass automatically. -/
theorem C5_counterexample :
    isGenesisLocked 5 = true ∧
    validatePow (fun _ => MIN_DIFFICULTY) ⟨5, "deadbeef", some 12⟩ = false := by
  exact ⟨rfl, by decide⟩

/-- C6: if any step of `append_entry_safe` fails, the call returns `False` and
the ledger contents are unchanged; if every step succeeds it returns `True`
and the new contents are the old contents followed by exactly one JSON line
for the entry. -/
theorem C6_append_entry_safe_atomic (ledger : Option String) (entry : J)
    (f : AppendFailures) :
    ((f.mkstempFail || f.copyFail || f.writeFail || f.replaceFail) = true →
      appendEntrySafe ledger entry f = (false, ledger)) ∧
    ((f.mkstempFail || f.copyFail || f.writeFail || f.replaceFail) = false →
      appendEntrySafe ledger entry f =
        (true, some (ledger.getD "" ++ dumpsDefault entry ++ "\n"))) := by
  rcases f with ⟨m, c, w, r⟩
  cases m <;> cases c <;> cases w <;> cases r <;> cases ledger <;>
    simp [appendEntrySafe, Option.getD]

/-- Witness for C6: a failing copy step leaves a concrete ledger unchanged. -/
theorem C6_append_entry_safe_atomic_witness :
    appendEntrySafe (some "L") (.int 1) ⟨false, true, false, false⟩ = (false, some "L") :=
  (C6_append_entry_safe_atomic (some "L") (.int 1) ⟨false, true, false, false⟩).1 rfl

/-- Oracles whose issued-supply lookup raises an exception. -/
def raisingIssuedOracles : TxOracles :=
  { balanceLookup := fun _ _ => .ok (.int 0),
    seenLookup := some (fun _ => .ok (.bool false)),
    issuedLookup := some (fun _ => .error "issued supply oracle raised"),
    heightLookup := some (fun _ => .ok (.int 0)) }

/-- C7 (code bug): `current_issued_lookup()` is called outside any
`try/except`, so an issued-supply oracle that raises makes
`validate_transaction` itself raise instead of returning a structured triple —
here evaluated on a concrete strict coinbase transaction. -/
theorem C7_issued_oracle_exception_escapes :
    validateTransaction raisingIssuedOracles (.obj (coinbaseTx "M" 1 0 0 (.int 50))) =
    .error "issued supply oracle raised" := rfl

/-- C1: a strict, fully-populated coinbase transaction whose height field
differs from the canonical height reported by the height oracle is rejected
with reason `coinbase_height_mismatch`, whatever value — of any type — its
amount field holds (in particular, an amount equal to the reward for the
claimed height). -/
theorem C1_height_mismatch_rejected (r : String) (hr : r ≠ "")
    (nonce ts hf canonicalH issued : Int) (amount : J) (hne : hf ≠ canonicalH) :
    validateTransaction (consensusOracles canonicalH issued)
      (.obj (coinbaseTx r nonce ts hf amount)) =
    .ok (false, computeTxId (coinbaseTx r nonce ts hf amount),
      "coinbase_height_mismatch") := by
  simp [validateTransaction, replayGuard, consensusOracles, coinbaseTx, isCoinbaseTx,
    txGet, pyStrOpt, pyStr, pyTruthyOpt, pyTruthy, RESERVED_SENDERS, validateCoinbase,
    asIntCore, asInt, pyOr, futureSkew, hr, hne]

/-- Witness for C1: canonical height 0, claimed height 100000, amount 25 — the
reward for the claimed (wrong) height — still rejected for the height. -/
theorem C1_height_mismatch_rejected_witness :
    validateTransaction (consensusOracles 0 0)
      (.obj (coinbaseTx "M" 123 5 100000 (.int 25))) =
    .ok (false, computeTxId (coinbaseTx "M" 123 5 100000 (.int 25)),
      "coinbase_height_mismatch") :=
  C1_height_mismatch_rejected "M" (by decide) 123 5 100000 0 0 (.int 25) (by decide)

/-- C2: a strict, fully-populated coinbase transaction carrying the exact
schedule reward for the canonical height is rejected with
`coinbase_supply_cap` whenever the issued supply plus that reward exceeds
`MAX_SUPPLY = 28_000_000`. -/
theorem C2_supply_cap_rejected (r : String) (hr : r ≠ "")
    (nonce ts canonicalH issued : Int)
    (hcap : issued + l28CoinbaseReward canonicalH > L28_MAX_SUPPLY) :
    validateTransaction (consensusOracles canonicalH issued)
      (.obj (coinbaseTx r nonce ts canonicalH (.int (l28CoinbaseReward canonicalH)))) =
    .ok (false,
      computeTxId (coinbaseTx r nonce ts canonicalH (.int (l28CoinbaseReward canonicalH))),
      "coinbase_supply_cap") := by
  simp [validateTransaction, replayGuard, consensusOracles, coinbaseTx, isCoinbaseTx,
    txGet, pyStrOpt, pyStr, pyTruthyOpt, pyTruthy, RESERVED_SENDERS, validateCoinbase,
    asIntCore, asInt, pyOr, futureSkew, hr, hcap]

/-- Witness for C2: canonical height 0 (reward 50), issued supply 27 999 951,
so issuing 50 more would pass the 28 000 000 cap. -/
theorem C2_supply_cap_rejected_witness :
    validateTransaction (consensusOracles 0 27999951)
      (.obj (coinbaseTx "M" 9 0 0 (.int (l28CoinbaseReward 0)))) =
    .ok (false, computeTxId (coinbaseTx "M" 9 0 0 (.int (l28CoinbaseReward 0))),
      "coinbase_supply_cap") :=
  C2_supply_cap_rejected "M" (by decide) 9 0 0 27999951 (by decide)

/-- C8: on a cache miss, (i) heights strictly between the genesis lock and the
end of the warm-up window get `MIN_DIFFICULTY`; (ii) at or beyond the window
with at least 100 recent entries the controller steps by the ratio rule
(+1 capped at 16 when actual/expected < 0.7, −1 floored at 12 when > 1.5, else
hold); (iii) the result stays in `[MIN_DIFFICULTY, MAX_DIFFICULTY]` whenever
the current difficulty does; and (iv) a retarget moves the difficulty by at
most one. -/
theorem C8_difficulty_controller (cache : Int → Option Int) (cur : Int)
    (recentTs : List ℚ) (h : Int) (hc : cache h = none) :
    (GENESIS_LOCKED < h → h < GENESIS_LOCKED + DIFFICULTY_WINDOW →
      calculateDifficulty cache cur recentTs h = MIN_DIFFICULTY) ∧
    (GENESIS_LOCKED + DIFFICULTY_WINDOW ≤ h → 100 ≤ recentTs.length →
      calculateDifficulty cache cur recentTs h =
        (if (recentTs.getLast?.getD 0 - recentTs.head?.getD 0) /
              (TARGET_ENTRY_TIME * (recentTs.length : ℚ)) < 7 / 10 then
            min (cur + 1) MAX_DIFFICULTY
          else if (recentTs.getLast?.getD 0 - recentTs.head?.getD 0) /
              (TARGET_ENTRY_TIME * (recentTs.length : ℚ)) > 3 / 2 then
            max (cur - 1) MIN_DIFFICULTY
          else cur)) ∧
    (MIN_DIFFICULTY ≤ cur → cur ≤ MAX_DIFFICULTY →
      MIN_DIFFICULTY ≤ calculateDifficulty cache cur recentTs h ∧
      calculateDifficulty cache cur recentTs h ≤ MAX_DIFFICULTY) ∧
    (GENESIS_LOCKED + DIFFICULTY_WINDOW ≤ h → MIN_DIFFICULTY ≤ cur →
      cur ≤ MAX_DIFFICULTY →
      (calculateDifficulty cache cur recentTs h - cur).natAbs ≤ 1) := by
  simp only [calculateDifficulty, hc]
  refine ⟨?_, ?_, ?_, ?_⟩
  · intro _ g2
    rw [if_pos g2]
  · intro hge hlen
    rw [if_neg (not_lt.mpr hge), if_neg (not_lt.mpr hlen)]
  · intro hcur1 hcur2
    by_cases hw : h < GENESIS_LOCKED + DIFFICULTY_WINDOW
    · rw [if_pos hw]
      simp [MIN_DIFFICULTY, MAX_DIFFICULTY]
    · rw [if_neg hw]
      by_cases hl : recentTs.length < 100
      · rw [if_pos hl]
        exact ⟨hcur1, hcur2⟩
      · rw [if_neg hl]
        simp only [MIN_DIFFICULTY, MAX_DIFFICULTY] at hcur1 hcur2 ⊢
        split_ifs <;> omega
  · intro hge hcur1 hcur2
    rw [if_neg (not_lt.mpr hge)]
    by_cases hl : recentTs.length < 100
    · rw [if_pos hl]
      omega
    · rw [if_neg hl]
      simp only [MIN_DIFFICULTY, MAX_DIFFICULTY] at hcur1 hcur2 ⊢
      split_ifs <;> omega

/-- Witness for C8: height 100100 lies strictly inside the warm-up window, so
an uncached query with empty history returns `MIN_DIFFICULTY`, which also lies
within the difficulty bounds. -/
theorem C8_difficulty_controller_witness :
    calculateDifficulty (fun _ => none) 12 [] 100100 = MIN_DIFFICULTY ∧
    MIN_DIFFICULTY ≤ calculateDifficulty (fun _ => none) 12 [] 100100 ∧
    calculateDifficulty (fun _ => none) 12 [] 100100 ≤ MAX_DIFFICULTY :=
  ⟨(C8_difficulty_controller (fun _ => none) 12 [] 100100 rfl).1 (by decide) (by decide),
   (C8_difficulty_controller (fun _ => none) 12 [] 100100 rfl).2.2.1 (by decide) (by decide)⟩

/-- On a ledger whose heights ascend by one from `base`, the `break`-style keep
loop of `rollback_to_height` keeps exactly the prefix up to the target. -/
theorem rollbackKeep_contig : ∀ (es : List LEntry) (base t : Int),
    (∀ i (hi : i < es.length), es[i].entryHeight = base + i) →
    rollbackKeep t es = if base ≤ t then es.take ((t - base).toNat + 1) else [] := by
  intro es
  induction es with
  | nil => intro base t _; simp [rollbackKeep]
  | cons e rest ih =>
    intro base t hh
    have he : e.entryHeight = base := by simpa using hh 0 (by simp)
    have hrest : ∀ i (hi : i < rest.length), rest[i].entryHeight = (base + 1) + i := by
      intro i hi
      have hstep := hh (i + 1) (by simpa using Nat.succ_lt_succ hi)
      simp only [List.getElem_cons_succ] at hstep
      rw [hstep]
      push_cast
      ring
    by_cases hbt : base ≤ t
    · rw [if_pos hbt]
      simp only [rollbackKeep]
      rw [if_pos (he ▸ hbt), ih (base + 1) t hrest]
      by_cases hbt1 : base + 1 ≤ t
      · rw [if_pos hbt1]
        have harith : (t - base).toNat = (t - (base + 1)).toNat + 1 := by omega
        rw [harith, List.take_succ_cons]
      · rw [if_neg hbt1]
        have harith : (t - base).toNat = 0 := by omega
        rw [harith, List.take_succ_cons, List.take_zero]
    · rw [if_neg hbt]
      simp only [rollbackKeep]
      rw [if_neg (by rw [he]; exact hbt)]

/-- On the same contiguous ledgers, filtering by `height ≤ target` yields that
same prefix, so the break loop keeps exactly the entries with height ≤ t. -/
theorem filterHeight_contig : ∀ (es : List LEntry) (base t : Int),
    (∀ i (hi : i < es.length), es[i].entryHeight = base + i) →
    es.filter (fun e => decide (e.entryHeight ≤ t)) =
      if base ≤ t then es.take ((t - base).toNat + 1) else [] := by
  intro es
  induction es with
  | nil => intro base t _; simp
  | cons e rest ih =>
    intro base t hh
    have he : e.entryHeight = base := by simpa using hh 0 (by simp)
    have hrest : ∀ i (hi : i < rest.length), rest[i].entryHeight = (base + 1) + i := by
      intro i hi
      have hstep := hh (i + 1) (by simpa using Nat.succ_lt_succ hi)
      simp only [List.getElem_cons_succ] at hstep
      rw [hstep]
      push_cast
      ring
    by_cases hbt : base ≤ t
    · rw [if_pos hbt]
      rw [List.filter_cons_of_pos (by simpa [he] using hbt), ih (base + 1) t hrest]
      by_cases hbt1 : base + 1 ≤ t
      · rw [if_pos hbt1]
        have harith : (t - base).toNat = (t - (base + 1)).toNat + 1 := by omega
        rw [harith, List.take_succ_cons]
      · rw [if_neg hbt1]
        have harith : (t - base).toNat = 0 := by omega
        rw [harith, List.take_succ_cons, List.take_zero]
    · rw [if_neg hbt]
      rw [List.filter_cons_of_neg (by simpa [he] using hbt), ih (base + 1) t hrest]
      rw [if_neg (by omega)]

/-- The integrity scan counts every parsed entry exactly once. -/
theorem scanLedger_totalEntries : ∀ (es : List LEntry) (ph : Option String)
    (seen : List Int) (acc : IntegrityReport),
    (scanLedger es ph seen acc).totalEntries = acc.totalEntries + es.length := by
  intro es
  induction es with
  | nil => intro ph seen acc; simp [scanLedger]
  | cons e rest ih =>
    intro ph seen acc
    simp only [scanLedger]
    rw [ih]
    rcases ph with _ | ph'
    all_goals repeat' split
    all_goals simp
    all_goals omega

/-- `verify_integrity` reports `total_entries` equal to the number of parsed
lines. -/
theorem verifyIntegrity_totalEntries (es : List LEntry) :
    (verifyIntegrity (some es)).totalEntries = es.length := by
  simp [verifyIntegrity, scanLedger_totalEntries]

/-- C9: on a well-formed ledger with contiguous heights `0..n` and a target
`h ≤ n`, the rollback loop keeps exactly the entries with height ≤ h, a
subsequent `verify_integrity` reports `total_entries = h + 1`, and the
retained tail entry's hash is the hash recorded at height `h`. -/
theorem C9_rollback_then_verify (es : List LEntry) (n h : Nat)
    (hlen : es.length = n + 1)
    (hheights : ∀ i (hi : i < es.length), es[i].entryHeight = (i : Int))
    (hh : h ≤ n) :
    rollbackKeep (h : Int) es =
      es.filter (fun e => decide (e.entryHeight ≤ (h : Int))) ∧
    (verifyIntegrity (some (rollbackKeep (h : Int) es))).totalEntries = h + 1 ∧
    (rollbackKeep (h : Int) es).getLast?.map LEntry.hash = es[h]?.map LEntry.hash := by
  have hh0 : ∀ i (hi : i < es.length), es[i].entryHeight = (0 : Int) + i := by
    intro i hi
    rw [hheights i hi]
    ring
  have hb : (0 : Int) ≤ (h : Int) := Int.natCast_nonneg h
  have htn : ((h : Int) - 0).toNat = h := by omega
  have hr := rollbackKeep_contig es 0 (h : Int) hh0
  have hf := filterHeight_contig es 0 (h : Int) hh0
  rw [if_pos hb, htn] at hr hf
  have hlt : h < es.length := by omega
  refine ⟨hr.trans hf.symm, ?_, ?_⟩
  · rw [hr, verifyIntegrity_totalEntries, List.length_take]
    omega
  · rw [hr, List.getLast?_eq_getElem?, List.length_take]
    have hmin : min (h + 1) es.length = h + 1 := by omega
    rw [hmin, Nat.add_sub_cancel, List.getElem?_take, if_pos (Nat.lt_succ_self h)]

/-- Witness for C9: a concrete three-entry chained ledger rolled back to
height 1. -/
theorem C9_rollback_then_verify_witness :
    rollbackKeep ((1 : Nat) : Int) [⟨0, "h0", "p"⟩, ⟨1, "h1", "h0"⟩, ⟨2, "h2", "h1"⟩] =
      [⟨0, "h0", "p"⟩, ⟨1, "h1", "h0"⟩, ⟨2, "h2", "h1"⟩].filter
        (fun e => decide (e.entryHeight ≤ ((1 : Nat) : Int))) ∧
    (verifyIntegrity (some (rollbackKeep ((1 : Nat) : Int)
      [⟨0, "h0", "p"⟩, ⟨1, "h1", "h0"⟩, ⟨2, "h2", "h1"⟩]))).totalEntries = 1 + 1 ∧
    (rollbackKeep ((1 : Nat) : Int)
        [⟨0, "h0", "p"⟩, ⟨1, "h1", "h0"⟩, ⟨2, "h2", "h1"⟩]).getLast?.map LEntry.hash =
      [⟨0, "h0", "p"⟩, ⟨1, "h1", "h0"⟩, ⟨2, "h2", "h1"⟩][(1 : Nat)]?.map LEntry.hash :=
  C9_rollback_then_verify [⟨0, "h0", "p"⟩, ⟨1, "h1", "h0"⟩, ⟨2, "h2", "h1"⟩] 2 1
    (by decide) (by decide) (by decide)

/-! ### Digest shape: every hex digest is 64 hex characters

These lemmas count the possible tx ids, for the pigeonhole argument below. -/

/-- One compression step preserves the 8-word state shape. -/
theorem shaCompress_length (st block : List Nat) (hst : st.length = 8) :
    (shaCompress st block).length = 8 := by
  simp [shaCompress, hst]

/-- Folding compression over any block list preserves the 8-word shape. -/
theorem foldl_shaCompress_length :
    ∀ (blocks : List (List Nat)) (st : List Nat), st.length = 8 →
      (blocks.foldl shaCompress st).length = 8 := by
  intro blocks
  induction blocks with
  | nil => intro st hst; simpa using hst
  | cons b rest ih => intro st hst; exact ih _ (shaCompress_length st b hst)

/-- A SHA-256 digest is eight words. -/
theorem sha256Words_length (msg : List Nat) : (sha256Words msg).length = 8 :=
  foldl_shaCompress_length _ shaH0 (by decide)

/-- Every hex digit rendered is an ASCII character. -/
theorem hexDigit_toNat_lt (n : Nat) : (hexDigit n).toNat < 128 := by
  unfold hexDigit hexChars
  rcases Nat.lt_or_ge n 16 with hlt | hge
  · interval_cases n <;> decide
  · rw [List.getD_eq_default _ _ (by simpa using hge)]
    decide

/-- A word renders as eight hex characters. -/
theorem wordHex_length (x : Nat) : (wordHex x).length = 8 := by
  simp [wordHex]

/-- Characters of a rendered word are ASCII. -/
theorem mem_wordHex_toNat_lt {c : Char} {x : Nat} (hc : c ∈ wordHex x) :
    c.toNat < 128 := by
  simp only [wordHex, List.mem_map] at hc
  obtain ⟨s, _, rfl⟩ := hc
  exact hexDigit_toNat_lt _

/-- Rendering `k` words yields `8 * k` characters. -/
theorem flatten_wordHex_length : ∀ ws : List Nat,
    ((ws.map wordHex).flatten).length = 8 * ws.length := by
  intro ws
  induction ws with
  | nil => rfl
  | cons w rest ih =>
    simp only [List.map_cons, List.flatten_cons, List.length_append, ih,
      wordHex_length, List.length_cons]
    omega

/-- A hex digest string has exactly 64 characters. -/
theorem sha256Hex_data_length (s : String) : (sha256Hex s).data.length = 64 := by
  show ((sha256Words (utf8Bytes s)).map wordHex).flatten.length = 64
  rw [flatten_wordHex_length, sha256Words_length]

/-- Every character of a hex digest string is ASCII. -/
theorem sha256Hex_data_toNat_lt (s : String) :
    ∀ c ∈ (sha256Hex s).data, c.toNat < 128 := by
  intro c hc
  have hc' : c ∈ ((sha256Words (utf8Bytes s)).map wordHex).flatten := hc
  rw [List.mem_flatten] at hc'
  obtain ⟨l, hl, hcl⟩ := hc'
  rw [List.mem_map] at hl
  obtain ⟨w, _, rfl⟩ := hl
  exact mem_wordHex_toNat_lt hcl

/-- A transaction id is a 64-character digest string. -/
theorem computeTxId_data_length (tx : Tx) : (computeTxId tx).data.length = 64 :=
  sha256Hex_data_length _

/-- Every character of a transaction id is ASCII. -/
theorem computeTxId_data_toNat_lt (tx : Tx) :
    ∀ c ∈ (computeTxId tx).data, c.toNat < 128 :=
  sha256Hex_data_toNat_lt _

/-- Base-256 value of a character list; injective on same-length byte-bounded
lists, so it counts the possible digests. -/
def strVal : List Char → Nat
  | [] => 0
  | c :: rest => c.toNat + 256 * strVal rest

/-- The value of a byte-bounded list is below `256 ^ length`. -/
theorem strVal_lt : ∀ l : List Char, (∀ c ∈ l, c.toNat < 256) →
    strVal l < 256 ^ l.length := by
  intro l
  induction l with
  | nil => intro _; simp [strVal]
  | cons c rest ih =>
    intro hb
    have h1 : c.toNat < 256 := hb c (by simp)
    have h2 : strVal rest + 1 ≤ 256 ^ rest.length := ih (fun d hd => hb d (by simp [hd]))
    have h3 : c.toNat + 256 * strVal rest + 1 ≤ 256 * (strVal rest + 1) := by omega
    have h4 : 256 * (strVal rest + 1) ≤ 256 * 256 ^ rest.length :=
      Nat.mul_le_mul_left 256 h2
    have h5 : (256 : Nat) ^ (rest.length + 1) = 256 * 256 ^ rest.length := by
      rw [pow_succ]
      ring
    simp only [strVal, List.length_cons, h5]
    omega

/-- Same-length byte-bounded lists with the same value are equal. -/
theorem strVal_inj : ∀ l1 l2 : List Char, l1.length = l2.length →
    (∀ c ∈ l1, c.toNat < 256) → (∀ c ∈ l2, c.toNat < 256) →
    strVal l1 = strVal l2 → l1 = l2 := by
  intro l1
  induction l1 with
  | nil =>
    intro l2 hl _ _ _
    cases l2 with
    | nil => rfl
    | cons c r => simp at hl
  | cons c1 r1 ih =>
    intro l2 hl hb1 hb2 hv
    cases l2 with
    | nil => simp at hl
    | cons c2 r2 =>
      have h1 : c1.toNat < 256 := hb1 c1 (by simp)
      have h2 : c2.toNat < 256 := hb2 c2 (by simp)
      simp only [strVal] at hv
      have hc : c1.toNat = c2.toNat := by omega
      have hrec : strVal r1 = strVal r2 := by omega
      have hceq : c1 = c2 := Char.ext (UInt32.ext hc)
      have hlen : r1.length = r2.length := by simpa using hl
      rw [hceq, ih r2 hlen (fun d hd => hb1 d (by simp [hd]))
        (fun d hd => hb2 d (by simp [hd])) hrec]

/-- Strings with equal character lists are equal. -/
theorem stringEqOfData : ∀ s1 s2 : String, s1.data = s2.data → s1 = s2 := by
  intro s1 s2 hd
  cases s1
  cases s2
  cases hd
  rfl

/-- Id strings of each length, pairwise distinct. -/
def idOfLen (n : Nat) : String := String.mk (List.replicate n 'a')

/-- Transactions that are equal except for the `id` placeholder field. -/
def txWithIdLen (n : Nat) : Tx := [("amount", .int 5), ("id", .str (idOfLen n))]

/-- C10 counterexample, refuting the universal "dicts differing only in an id
field yield different ids": ids are 64-hex-character digests, so there are at
most `256 ^ 64` of them, and among `256 ^ 64 + 1` transactions that differ
only in their id field two must share an id — SHA-256 cannot be injective on
an infinite family of inputs. -/
theorem C10_counterexample : ∃ m n : Nat,
    txWithIdLen m ≠ txWithIdLen n ∧
    computeTxId (txWithIdLen m) = computeTxId (txWithIdLen n) := by
  have hmap : ∀ a ∈ Finset.range (256 ^ 64 + 1),
      strVal (computeTxId (txWithIdLen a)).data ∈ Finset.range (256 ^ 64) := by
    intro a _
    rw [Finset.mem_range]
    have hlt := strVal_lt (computeTxId (txWithIdLen a)).data
      (fun c hc => lt_of_lt_of_le (computeTxId_data_toNat_lt _ c hc) (by norm_num))
    rwa [computeTxId_data_length] at hlt
  have hcard : (Finset.range (256 ^ 64)).card < (Finset.range (256 ^ 64 + 1)).card := by
    rw [Finset.card_range, Finset.card_range]
    exact Nat.lt_succ_self _
  obtain ⟨a, ha, b, hb, hne, heq⟩ :=
    Finset.exists_ne_map_eq_of_card_lt_of_maps_to hcard hmap
  refine ⟨a, b, ?_, ?_⟩
  · intro hcontra
    apply hne
    have hid : idOfLen a = idOfLen b := by
      simpa [txWithIdLen] using hcontra
    have hlen := congrArg (fun s => s.data.length) hid
    simpa [idOfLen] using hlen
  · refine stringEqOfData _ _ ?_
    refine strVal_inj _ _ ?_ ?_ ?_ heq
    · rw [computeTxId_data_length, computeTxId_data_length]
    · exact fun c hc => lt_of_lt_of_le (computeTxId_data_toNat_lt _ c hc) (by norm_num)
    · exact fun c hc => lt_of_lt_of_le (computeTxId_data_toNat_lt _ c hc) (by norm_num)

/-- C10 (amended): `compute_tx_id` is the SHA-256 hex digest of the canonical
(sorted-key, compact, UTF-8) encoding of the entire dict with no field
excluded — any `id` placeholder is hashed too — so it is deterministic on
equal dicts and, in particular, the concrete dicts differing only in their id
field get different ids; only a SHA-256 collision (which exists by pigeonhole
but is not exhibitable) can make two such ids coincide. -/
theorem C10_tx_id_deterministic :
    (∀ tx : Tx, computeTxId tx = sha256Hex (dumpsCanon (.obj tx))) ∧
    (∀ t1 t2 : Tx, t1 = t2 → computeTxId t1 = computeTxId t2) ∧
    computeTxId [("amount", .int 5), ("id", .str "a")] ≠
      computeTxId [("amount", .int 5), ("id", .str "b")] :=
  ⟨fun _ => rfl, fun t1 t2 hteq => by rw [hteq], by decide⟩

/-- Witness for C10's determinism conjunct on a concrete dict. -/
theorem C10_tx_id_deterministic_witness :
    computeTxId [("amount", .int 5)] = computeTxId [("amount", .int 5)] :=
  C10_tx_id_deterministic.2.1 [("amount", .int 5)] [("amount", .int 5)] rfl

end L28
